import Mathlib

/-!
Shallow embedding of the TempMail backend core (src/backend/src/store.js,
smtp.js, websocket.js).  JavaScript `Map`s are modelled as association
lists with the usual lookup/set/erase operations; `Date.now()` is an
explicit `now : Nat` parameter; fallible code returns `Except`.
-/

namespace TempMail

/-- Lookup in an association list, modelling `Map.prototype.get`. -/
def mapLookup {α : Type} : List (String × α) → String → Option α
  | [], _ => none
  | (k, v) :: rest, key => if k = key then some v else mapLookup rest key

/-- Update in an association list, modelling `Map.prototype.set`
(replaces any existing entry for the key). -/
def mapSet {α : Type} (m : List (String × α)) (k : String) (v : α) :
    List (String × α) :=
  (k, v) :: m.filter (fun p => decide (p.1 ≠ k))

/-- Removal from an association list, modelling `Map.prototype.delete`. -/
def mapErase {α : Type} (m : List (String × α)) (k : String) :
    List (String × α) :=
  m.filter (fun p => decide (p.1 ≠ k))

/-- Membership test, modelling `Map.prototype.has`. -/
def mapContains {α : Type} (m : List (String × α)) (k : String) : Bool :=
  (mapLookup m k).isSome

theorem mapLookup_set_self {α : Type} (m : List (String × α)) (k : String) (v : α) :
    mapLookup (mapSet m k v) k = some v := by
  simp [mapSet, mapLookup]

theorem mapLookup_filter_ne {α : Type} (m : List (String × α)) (k k' : String)
    (h : k' ≠ k) :
    mapLookup (m.filter (fun p => decide (p.1 ≠ k))) k' = mapLookup m k' := by
  induction m with
  | nil => rfl
  | cons p rest ih =>
    obtain ⟨a, b⟩ := p
    by_cases hp : a = k
    · have hc : decide (a ≠ k) = false := by simp [hp]
      have hne : ¬ a = k' := fun he => h (he.symm.trans hp)
      simp only [List.filter_cons, hc]
      rw [if_neg Bool.false_ne_true, ih]
      simp only [mapLookup]
      rw [if_neg hne]
    · have hc : decide (a ≠ k) = true := by simp [hp]
      simp only [List.filter_cons, hc, if_pos rfl]
      simp only [mapLookup]
      by_cases hk' : a = k'
      · rw [if_pos hk', if_pos hk']
      · rw [if_neg hk', if_neg hk', ih]

theorem mapLookup_set_ne {α : Type} (m : List (String × α)) (k k' : String) (v : α)
    (h : k' ≠ k) :
    mapLookup (mapSet m k v) k' = mapLookup m k' := by
  have hk : ¬ k = k' := fun he => h he.symm
  simp only [mapSet, mapLookup, if_neg hk]
  exact mapLookup_filter_ne m k k' h

theorem mapLookup_erase_self {α : Type} (m : List (String × α)) (k : String) :
    mapLookup (mapErase m k) k = none := by
  induction m with
  | nil => rfl
  | cons p rest ih =>
    obtain ⟨a, b⟩ := p
    by_cases hp : a = k
    · simpa [mapErase, hp] using ih
    · simpa [mapErase, mapLookup, hp] using ih

theorem mapLookup_erase_ne {α : Type} (m : List (String × α)) (k k' : String)
    (h : k' ≠ k) :
    mapLookup (mapErase m k) k' = mapLookup m k' :=
  mapLookup_filter_ne m k k' h

/-- One mailbox session, `store.js` line 60: `{ createdAt, expiresAt }`. -/
structure Session where
  createdAt : Nat
  expiresAt : Nat
deriving DecidableEq, Repr

/-- A client notification channel (a `ws` handle).  `readyState = 1` is OPEN;
`sendOk` records whether a `ws.send` call on it succeeds or throws. -/
structure Channel where
  id : Nat
  readyState : Nat
  sendOk : Bool
deriving DecidableEq, Repr

/-- The `MemoryStore` state: domain, sessions map, connections map and the
two aggregate counters. -/
structure Store where
  domain : String
  sessions : List (String × Session)
  connections : List (String × Channel)
  totalEmailsCreated : Nat
  totalMessagesReceived : Nat
deriving DecidableEq, Repr

/-- `MemoryStore.hasEmail` (store.js lines 102-105):
`session && Date.now() < session.expiresAt`, read at Bool level
(JavaScript returns a falsy value in both non-live cases). -/
def hasEmail (s : Store) (now : Nat) (address : String) : Bool :=
  match mapLookup s.sessions address with
  | some session => decide (now < session.expiresAt)
  | none => false

/-- `MemoryStore.getSession` (store.js lines 89-95): the session only if
live, `null` otherwise. -/
def getSession (s : Store) (now : Nat) (address : String) : Option Session :=
  match mapLookup s.sessions address with
  | some session => if now < session.expiresAt then some session else none
  | none => none

/-- `MemoryStore.receiveMessage` (store.js lines 75-82): if a session exists
and `Date.now() < session.expiresAt`, increment `totalMessagesReceived` and
return true; otherwise return false with no state change. -/
def receiveMessage (s : Store) (now : Nat) (address : String) : Bool × Store :=
  match mapLookup s.sessions address with
  | some session =>
    if now < session.expiresAt then
      (true, { s with totalMessagesReceived := s.totalMessagesReceived + 1 })
    else (false, s)
  | none => (false, s)

/-- Character class of the validation regex in `createEmail`
(store.js line 50): letters, digits, hyphen, underscore. -/
def validChar (c : Char) : Bool :=
  c.isAlpha || c.isDigit || c = '-' || c = '_'

/-- The whole-string test of `/^[a-zA-Z0-9_-]+$/` (store.js lines 50-51). -/
def validPattern (p : String) : Bool :=
  !p.isEmpty && p.data.all validChar

/-- `MemoryStore.createEmail` (store.js lines 36-68).  `pfx` is the optional
prefix argument; `rnd` stands for the result of `this.randomStr(12)` (the
random generator is external entropy, passed in).  Validation errors become
`Except.error` with the thrown message. -/
def createEmail (s : Store) (now : Nat) (pfx : Option String) (rnd : String) :
    Except String (String × Store) :=
  match pfx with
  | some p =>
    if p.length > 32 then
      .error "Email prefix must be 32 characters or less"
    else if !(validPattern p) then
      .error "Email prefix can only contain letters, numbers, hyphens, and underscores"
    else
      let username := if p.isEmpty then rnd else p
      let address := username ++ "@" ++ s.domain
      .ok (address,
        { s with
          sessions := mapSet s.sessions address
            { createdAt := now, expiresAt := now + 60 * 60 * 1000 },
          totalEmailsCreated := s.totalEmailsCreated + 1 })
  | none =>
    let address := rnd ++ "@" ++ s.domain
    .ok (address,
      { s with
        sessions := mapSet s.sessions address
          { createdAt := now, expiresAt := now + 60 * 60 * 1000 },
        totalEmailsCreated := s.totalEmailsCreated + 1 })

/-- The loop body of the sweep in `MemoryStore.startCleanup`
(store.js lines 126-132): iterate the snapshot of the sessions map and,
for each entry with `now > session.expiresAt`, delete the session and its
connection. -/
def cleanupGo (now : Nat) : List (String × Session) → Store → Store
  | [], st => st
  | (email, session) :: rest, st =>
    if now > session.expiresAt then
      cleanupGo now rest
        { st with
          sessions := mapErase st.sessions email,
          connections := mapErase st.connections email }
    else cleanupGo now rest st

/-- One run of the interval callback installed by `MemoryStore.startCleanup`
(store.js lines 121-138). -/
def cleanupOnce (s : Store) (now : Nat) : Store :=
  cleanupGo now s.sessions s

/-- The connection handler of `startWebSocketServer` (websocket.js lines
16-52), restricted to its effect on the store.  `email` is the `email`
query parameter (`none` when absent; JavaScript also treats the empty
string as falsy).  Returns the new store and whether the connection was
accepted (a rejected connection is closed with code 4000 and binds
nothing). -/
def wsConnect (s : Store) (email : Option String) (ch : Channel) :
    Store × Bool :=
  match email with
  | none => (s, false)
  | some e =>
    if e.isEmpty then (s, false)
    else if mapContains s.sessions e then
      ({ s with connections := mapSet s.connections e ch }, true)
    else (s, false)

/-- The `close` handler installed on each accepted connection
(websocket.js lines 44-47): `store.connections.delete(email)`,
unconditionally, keyed by the address captured at connect time. -/
def wsClose (s : Store) (email : String) : Store :=
  { s with connections := mapErase s.connections email }

/-- Outcome of one `notify` call: the message was sent, the send threw and
was caught, or nothing was attempted (no binding, or channel not OPEN). -/
inductive NotifyOutcome where
  | pushed
  | sendFailed
  | skipped
deriving DecidableEq, Repr

/-- Parsed-mail attachment as produced by the external parser
(`mail.attachments` entries in smtp.js). -/
structure RawAttachment where
  filename : Option String
  contentType : Option String
  contentDisposition : Option String
  size : Option Nat
  content : Option (List Nat)
deriving DecidableEq, Repr

/-- Attachment as embedded in a pushed message (smtp.js lines 85-90);
`content` keeps the raw bytes (base64 transport encoding is a
serialization detail outside the model). -/
structure OutAttachment where
  filename : String
  contentType : String
  size : Nat
  content : Option (List Nat)
deriving DecidableEq, Repr

/-- Structured mail from the external parser (`simpleParser`): the fields
smtp.js reads from it.  `Option` models absent/empty fields. -/
structure Mail where
  fromText : Option String
  subject : Option String
  text : Option String
  html : Option String
  attachments : List RawAttachment
deriving DecidableEq, Repr

/-- The message object built in `onData` (smtp.js lines 77-92). -/
structure Message where
  id : String
  fromText : String
  subject : String
  text : String
  html : String
  attachments : List OutAttachment
  receivedAt : Nat
deriving DecidableEq, Repr

/-- JavaScript `x || d` on an optional string: the default is used when the
field is absent or the empty string (falsy). -/
def orDefault (o : Option String) (d : String) : String :=
  match o with
  | some s => if s.isEmpty then d else s
  | none => d

/-- The attachment pipeline of smtp.js lines 83-90: filter out
inline-disposition parts, then normalise the fields. -/
def buildAttachments (atts : List RawAttachment) : List OutAttachment :=
  (atts.filter (fun a =>
      a.contentDisposition.isNone || decide (a.contentDisposition ≠ some "inline"))).map
    (fun a =>
      { filename := a.filename.getD "unnamed"
        contentType := a.contentType.getD "application/octet-stream"
        size := a.size.getD 0
        content := a.content })

/-- The message construction of smtp.js lines 77-92.  `idStr` stands for
the random id `Date.now().toString(36) + Math.random()...` (external
entropy), and `now` for the `receivedAt` timestamp. -/
def buildMessage (mail : Mail) (idStr : String) (now : Nat) : Message :=
  { id := idStr
    fromText := orDefault mail.fromText "unknown"
    subject := orDefault mail.subject "(无主题)"
    text := mail.text.getD ""
    html := mail.html.getD ""
    attachments := buildAttachments mail.attachments
    receivedAt := now }

/-- The `notify` function returned by `startWebSocketServer`
(websocket.js lines 79-92): look up the binding; if present and OPEN,
try to send — a throwing send is caught, logged and dropped.  No branch
touches the store, and the function always returns. -/
def notify (s : Store) (email : String) (_m : Message) : Store × NotifyOutcome :=
  match mapLookup s.connections email with
  | some ws =>
    if ws.readyState = 1 then
      if ws.sendOk then (s, NotifyOutcome.pushed)
      else (s, NotifyOutcome.sendFailed)
    else (s, NotifyOutcome.skipped)
  | none => (s, NotifyOutcome.skipped)

/-- Suffix test on lists: `sfx a b` is true iff `b` is a suffix of `a`.
This is the observable behaviour of JavaScript `a.endsWith(b)` on the
character sequences. -/
def sfx {α : Type} [DecidableEq α] : List α → List α → Bool
  | a, b =>
    if a = b then true
    else match a with
      | [] => false
      | _ :: t => sfx t b

/-- `sfx` decides list suffix decomposition. -/
theorem sfx_iff {α : Type} [DecidableEq α] (a b : List α) :
    sfx a b = true ↔ ∃ l, a = l ++ b := by
  induction a with
  | nil =>
    rw [sfx]
    constructor
    · intro hb
      by_cases hb' : ([] : List α) = b
      · exact ⟨[], by simp [hb'.symm]⟩
      · rw [if_neg hb'] at hb; exact absurd hb (by simp)
    · rintro ⟨l, hl⟩
      have : l = [] ∧ b = [] := by
        constructor
        · cases l with
          | nil => rfl
          | cons x t => exact absurd hl.symm (by simp)
        · cases b with
          | nil => rfl
          | cons x t => exact absurd hl.symm (by simp)
      rw [if_pos this.2.symm]
  | cons x t ih =>
    rw [sfx]
    by_cases he : x :: t = b
    · rw [if_pos he]
      simp only [true_iff]
      exact ⟨[], by simp [he]⟩
    · rw [if_neg he]
      rw [ih]
      constructor
      · rintro ⟨l, hl⟩
        exact ⟨x :: l, by simp [hl]⟩
      · rintro ⟨l, hl⟩
        cases l with
        | nil => exact absurd (by simpa using hl) he
        | cons y u =>
          refine ⟨u, ?_⟩
          have := hl
          simp only [List.cons_append] at this
          exact (List.cons.injEq x t y (u ++ b)).mp this |>.2

/-- JavaScript `a.endsWith(b)` on strings, via the character data. -/
def strEndsWith (a b : String) : Bool :=
  sfx a.data b.data

/-- The `onRcptTo` handler (smtp.js lines 35-51).  The handler only reads
the store; it is returned unchanged alongside the accept/reject result.
A rejection carries the exact `550` message given to the callback. -/
def onRcptTo (s : Store) (now : Nat) (address : String) :
    Store × Except String Unit :=
  if !(strEndsWith address ("@" ++ s.domain)) then
    (s, .error "550 5.1.1 We do not serve this domain")
  else if !(hasEmail s now address) then
    (s, .error "550 5.1.1 Mailbox does not exist or has expired")
  else
    (s, .ok ())

/-- Whether an `Except` result is a success. -/
def exceptOk {ε σ : Type} : Except ε σ → Bool
  | .ok _ => true
  | .error _ => false

/-- The accumulation of `session.envelope.rcptTo` across one transfer's
RCPT stage: the declarations that `onRcptTo` accepted, in order. -/
def rcptStage (s : Store) (now : Nat) (decls : List String) : List String :=
  decls.filter (fun a => exceptOk (onRcptTo s now a).2)

/-- One iteration of the `recipients.forEach` loop in `onData`
(smtp.js lines 73-101): re-check `receiveMessage`; on true, push via
`wsNotify`; on false, skip that recipient.  The accumulator carries the
store and the recipients pushed so far. -/
def onDataStep (now : Nat) (msg : Message) (acc : Store × List String)
    (rcpt : String) : Store × List String :=
  let (st, delivered) := acc
  let (ok, st2) := receiveMessage st now rcpt
  if ok then ((notify st2 rcpt msg).1, delivered ++ [rcpt])
  else (st2, delivered)

/-- The `onData` handler (smtp.js lines 53-105).  `parsed` is the result
of `simpleParser`; a parse error aborts the transfer via `callback(err)`
with no state change; otherwise every envelope recipient is processed and
the transfer succeeds.  The success value lists the recipients to whom a
push was issued. -/
def onData (s : Store) (now : Nat) (parsed : Except String Mail)
    (recipients : List String) (idStr : String) :
    Store × Except String (List String) :=
  match parsed with
  | .error e => (s, .error e)
  | .ok mail =>
    let msg := buildMessage mail idStr now
    let (st, delivered) := recipients.foldl (onDataStep now msg) (s, [])
    (st, .ok delivered)

/-- Liveness of an address, as the spec words it: a session is present and
the current time is strictly before its expiry. -/
def liveAt (s : Store) (now : Nat) (a : String) : Prop :=
  ∃ sess, mapLookup s.sessions a = some sess ∧ now < sess.expiresAt

instance liveAtDecidable (s : Store) (now : Nat) (a : String) :
    Decidable (liveAt s now a) :=
  match h : mapLookup s.sessions a with
  | some sess =>
    if hlt : now < sess.expiresAt then
      isTrue ⟨sess, h, hlt⟩
    else
      isFalse (by
        rintro ⟨s2, hs2, hlt2⟩
        rw [h] at hs2
        cases hs2
        exact hlt hlt2)
  | none =>
    isFalse (by
      rintro ⟨s2, hs2, _⟩
      rw [h] at hs2
      cases hs2)

/-- A concrete store with one live session, used by witnesses. -/
def wStore : Store :=
  { domain := "example.com"
    sessions := [("test1@example.com", { createdAt := 0, expiresAt := 100 })]
    connections := []
    totalEmailsCreated := 1
    totalMessagesReceived := 0 }

/-- C1: `Directory.recordMessage(a)` (MemoryStore.receiveMessage) returns
true and increments `totalMessagesReceived` by exactly 1 when a session for
`a` exists and the current time is strictly before its `expiresAt`;
otherwise it returns false and leaves the whole store unchanged. -/
theorem receiveMessage_spec (s : Store) (now : Nat) (a : String) :
    (liveAt s now a →
      receiveMessage s now a =
        (true, { s with totalMessagesReceived := s.totalMessagesReceived + 1 }))
    ∧ (¬ liveAt s now a → receiveMessage s now a = (false, s)) := by
  constructor
  · rintro ⟨sess, hs, hlt⟩
    simp [receiveMessage, hs, hlt]
  · intro h
    unfold receiveMessage
    cases hm : mapLookup s.sessions a with
    | none => rfl
    | some sess =>
      have hge : ¬ now < sess.expiresAt := fun hlt => h ⟨sess, hm, hlt⟩
      simp [hge]

/-- Witness for C1 at a concrete store: live at time 50, dead at 100. -/
theorem receiveMessage_spec_witness :
    receiveMessage wStore 50 "test1@example.com" =
      (true, { wStore with totalMessagesReceived := 1 }) ∧
    receiveMessage wStore 100 "test1@example.com" = (false, wStore) :=
  ⟨(receiveMessage_spec wStore 50 "test1@example.com").1 (by decide),
   (receiveMessage_spec wStore 100 "test1@example.com").2 (by decide)⟩

/-- C2: `Directory.exists(a)` (MemoryStore.hasEmail) is true iff a session
for `a` is present and the current time is strictly before its `expiresAt`;
absent and expired-but-unswept addresses both yield false, with the same
observable result, and the gate agrees with `getSession`. -/
theorem hasEmail_spec (s : Store) (now : Nat) (a : String) :
    (hasEmail s now a = true ↔ liveAt s now a)
    ∧ (¬ liveAt s now a → hasEmail s now a = false)
    ∧ hasEmail s now a = (getSession s now a).isSome := by
  refine ⟨?_, ?_, ?_⟩
  · constructor
    · intro h
      unfold hasEmail at h
      cases hm : mapLookup s.sessions a with
      | none => rw [hm] at h; cases h
      | some sess =>
        rw [hm] at h
        exact ⟨sess, hm, of_decide_eq_true h⟩
    · rintro ⟨sess, hs, hlt⟩
      simp [hasEmail, hs, hlt]
  · intro h
    unfold hasEmail
    cases hm : mapLookup s.sessions a with
    | none => rfl
    | some sess =>
      have hge : ¬ now < sess.expiresAt := fun hlt => h ⟨sess, hm, hlt⟩
      simp [hge]
  · unfold hasEmail getSession
    cases mapLookup s.sessions a with
    | none => rfl
    | some sess => by_cases hlt : now < sess.expiresAt <;> simp [hlt]

/-- Witness for C2: the implication hypothesis discharged on an expired
entry of a concrete store. -/
theorem hasEmail_spec_witness :
    hasEmail wStore 100 "test1@example.com" = false :=
  (hasEmail_spec wStore 100 "test1@example.com").2.1 (by decide)

theorem receiveMessage_eq (s : Store) (now : Nat) (a : String) :
    receiveMessage s now a =
      (hasEmail s now a,
       if hasEmail s now a then
         { s with totalMessagesReceived := s.totalMessagesReceived + 1 }
       else s) := by
  unfold receiveMessage hasEmail
  cases mapLookup s.sessions a with
  | none => simp
  | some sess => by_cases h : now < sess.expiresAt <;> simp [h]

theorem notify_fst (s : Store) (e : String) (m : Message) :
    (notify s e m).1 = s := by
  unfold notify
  cases mapLookup s.connections e with
  | none => rfl
  | some ws =>
    by_cases h1 : ws.readyState = 1 <;> by_cases h2 : ws.sendOk <;> simp [h1, h2]

theorem onDataStep_fold (now : Nat) (msg : Message) (rcpts : List String) :
    ∀ (st : Store) (acc : List String),
      rcpts.foldl (onDataStep now msg) (st, acc) =
        ({ st with totalMessagesReceived :=
             st.totalMessagesReceived + (rcpts.filter (fun r => hasEmail st now r)).length },
         acc ++ rcpts.filter (fun r => hasEmail st now r)) := by
  induction rcpts with
  | nil => intro st acc; simp
  | cons r rest ih =>
    intro st acc
    rw [List.foldl_cons]
    by_cases h : hasEmail st now r = true
    · have hstep : onDataStep now msg (st, acc) r =
          ({ st with totalMessagesReceived := st.totalMessagesReceived + 1 },
           acc ++ [r]) := by
        simp [onDataStep, receiveMessage_eq, h, notify_fst]
      rw [hstep, ih]
      have hfe : (fun r' => hasEmail
          { st with totalMessagesReceived := st.totalMessagesReceived + 1 } now r') =
          (fun r' => hasEmail st now r') := rfl
      rw [hfe, List.filter_cons_of_pos (by exact h)]
      simp only [Prod.mk.injEq, Store.mk.injEq, List.length_cons, List.append_assoc,
        List.singleton_append, true_and, and_true]
      omega
    · have hb : hasEmail st now r = false := by
        cases hh : hasEmail st now r
        · rfl
        · exact absurd hh h
      have hstep : onDataStep now msg (st, acc) r = (st, acc) := by
        simp [onDataStep, receiveMessage_eq, hb]
      rw [hstep, ih, List.filter_cons_of_neg (by simp [hb])]

/-- C3: at the DATA stage, a parse failure aborts the transfer with the
parser's error and no state change or delivery; on parse success,
`receiveMessage` is re-evaluated per accepted recipient, a recipient for
which it returns false is skipped without failing the transfer, and the
pushes and the counter increment cover exactly the still-live recipients. -/
theorem onData_spec (s : Store) (now : Nat) (e : String) (mail : Mail)
    (rcpts : List String) (idStr : String) :
    onData s now (Except.error e) rcpts idStr = (s, Except.error e)
    ∧ (onData s now (Except.ok mail) rcpts idStr).2 =
        Except.ok (rcpts.filter (fun r => hasEmail s now r))
    ∧ (onData s now (Except.ok mail) rcpts idStr).1 =
        { s with totalMessagesReceived :=
            s.totalMessagesReceived + (rcpts.filter (fun r => hasEmail s now r)).length } := by
  refine ⟨rfl, ?_, ?_⟩ <;>
    simp [onData, onDataStep_fold now (buildMessage mail idStr now) rcpts s []]

theorem strEndsWith_iff (a b : String) :
    strEndsWith a b = true ↔ ∃ loc : String, a = loc ++ b := by
  unfold strEndsWith
  rw [sfx_iff]
  constructor
  · rintro ⟨l, hl⟩
    refine ⟨⟨l⟩, ?_⟩
    apply String.ext
    rw [String.data_append]
    exact hl
  · rintro ⟨loc, hloc⟩
    exact ⟨loc.data, by rw [hloc, String.data_append]⟩

/-- A concrete store with two live sessions, used by RCPT witnesses. -/
def wStore2 : Store :=
  { domain := "example.com"
    sessions := [("a@example.com", { createdAt := 0, expiresAt := 100 }),
                 ("b@example.com", { createdAt := 0, expiresAt := 100 })]
    connections := []
    totalEmailsCreated := 2
    totalMessagesReceived := 0 }

/-- C4: `onRcptTo` accepts a recipient exactly when its address ends in
`@` plus the configured mail domain (i.e. it decomposes as
`loc ++ "@" ++ domain`) and `hasEmail` holds for it; any rejection is one
of the two permanent `550` failures; the handler leaves the store
unchanged; and an accepted declaration joins the transfer's recipient list
independently of the other declarations. -/
theorem onRcptTo_spec (s : Store) (now : Nat) (addr : String)
    (decls : List String) :
    ((onRcptTo s now addr).2 = Except.ok () ↔
      ((∃ loc, addr = loc ++ "@" ++ s.domain) ∧ hasEmail s now addr = true))
    ∧ (onRcptTo s now addr).1 = s
    ∧ (∀ msg, (onRcptTo s now addr).2 = Except.error msg →
        msg = "550 5.1.1 We do not serve this domain" ∨
        msg = "550 5.1.1 Mailbox does not exist or has expired")
    ∧ ((onRcptTo s now addr).2 = Except.ok () →
        rcptStage s now (addr :: decls) = addr :: rcptStage s now decls) := by
  have hdec : (∃ loc, addr = loc ++ "@" ++ s.domain) ↔
      strEndsWith addr ("@" ++ s.domain) = true := by
    rw [strEndsWith_iff]
    constructor
    · rintro ⟨loc, h⟩; exact ⟨loc, by rw [h, String.append_assoc]⟩
    · rintro ⟨loc, h⟩; exact ⟨loc, by rw [h, String.append_assoc]⟩
  refine ⟨?_, ?_, ?_, ?_⟩
  · rw [hdec]
    unfold onRcptTo
    by_cases he : strEndsWith addr ("@" ++ s.domain) = true
    · by_cases hm : hasEmail s now addr = true
      · simp [he, hm]
      · simp [he, hm]
    · simp [he]
  · unfold onRcptTo
    by_cases he : strEndsWith addr ("@" ++ s.domain) = true <;>
      by_cases hm : hasEmail s now addr = true <;> simp [he, hm]
  · intro msg
    unfold onRcptTo
    by_cases he : strEndsWith addr ("@" ++ s.domain) = true
    · by_cases hm : hasEmail s now addr = true
      · simp [he, hm]
      · simp only [he, hm, Bool.not_true, Bool.not_false, if_neg, if_pos,
          Bool.true_eq_false, Bool.false_eq_true, if_false, if_true]
        intro h
        have : "550 5.1.1 Mailbox does not exist or has expired" = msg := by
          simpa [he, hm] using h
        exact Or.inr this.symm
    · simp only [he]
      intro h
      have : "550 5.1.1 We do not serve this domain" = msg := by
        simpa [he] using h
      exact Or.inl this.symm
  · intro hok
    unfold rcptStage
    rw [List.filter_cons_of_pos (by simp [exceptOk, hok])]

/-- Witness for C4 at a concrete two-mailbox store: the accepted
declaration `a@example.com` joins the recipient list in front of the other
accepted declaration, so one transfer holds two accepted recipients. -/
theorem onRcptTo_spec_witness :
    rcptStage wStore2 50 ("a@example.com" :: ["b@example.com"]) =
      "a@example.com" :: rcptStage wStore2 50 ["b@example.com"] :=
  (onRcptTo_spec wStore2 50 "a@example.com" ["b@example.com"]).2.2.2 rfl

/-- Membership test on a list of addresses. -/
def memb (x : String) : List String → Bool
  | [] => false
  | y :: rest => if y = x then true else memb x rest

theorem memb_iff (x : String) (l : List String) : memb x l = true ↔ x ∈ l := by
  induction l with
  | nil => simp [memb]
  | cons y rest ih =>
    unfold memb
    by_cases h : y = x
    · simp [h]
    · have hxy : ¬ x = y := fun he => h he.symm
      simp [h, hxy, ih]

/-- The addresses the sweep deletes out of a snapshot of the sessions map:
those whose `expiresAt` is strictly before the sweep's `now`. -/
def expiredEmails (now : Nat) (entries : List (String × Session)) : List String :=
  (entries.filter (fun q => decide (q.2.expiresAt < now))).map Prod.fst

theorem memb_cons_eq (x email : String) (l : List String) :
    memb x (email :: l) = if email = x then true else memb x l := rfl

theorem notMemb_cons (x email : String) (l : List String) :
    (!(memb x (email :: l))) = (!(memb x l) && decide (x ≠ email)) := by
  rw [memb_cons_eq]
  by_cases h : email = x
  · rw [if_pos h]
    have hd : decide (x ≠ email) = false := by simp [h.symm]
    rw [hd, Bool.and_false]
    rfl
  · rw [if_neg h]
    have hxe : ¬ x = email := fun he => h he.symm
    have hd : decide (x ≠ email) = true := by simp [hxe]
    rw [hd, Bool.and_true]

theorem filter_erase_memb {α : Type} (l : List (String × α)) (email : String)
    (E : List String) :
    (mapErase l email).filter (fun p => !(memb p.1 E)) =
      l.filter (fun p => !(memb p.1 (email :: E))) := by
  unfold mapErase
  rw [List.filter_filter]
  apply List.filter_congr
  intro p _
  rw [notMemb_cons]

theorem expiredEmails_cons_pos (now : Nat) (email : String) (sess : Session)
    (rest : List (String × Session)) (h : sess.expiresAt < now) :
    expiredEmails now ((email, sess) :: rest) = email :: expiredEmails now rest := by
  unfold expiredEmails
  rw [List.filter_cons_of_pos (by simp [h])]
  simp

theorem expiredEmails_cons_neg (now : Nat) (email : String) (sess : Session)
    (rest : List (String × Session)) (h : ¬ sess.expiresAt < now) :
    expiredEmails now ((email, sess) :: rest) = expiredEmails now rest := by
  unfold expiredEmails
  rw [List.filter_cons_of_neg (by simp [h])]

theorem cleanupGo_spec (now : Nat) (entries : List (String × Session)) :
    ∀ st : Store,
      cleanupGo now entries st =
        { st with
          sessions := st.sessions.filter
            (fun p => !(memb p.1 (expiredEmails now entries))),
          connections := st.connections.filter
            (fun p => !(memb p.1 (expiredEmails now entries))) } := by
  induction entries with
  | nil =>
    intro st
    simp [cleanupGo, expiredEmails, memb]
  | cons hd rest ih =>
    obtain ⟨email, sess⟩ := hd
    intro st
    simp only [cleanupGo]
    by_cases hx : sess.expiresAt < now
    · rw [if_pos hx, ih, expiredEmails_cons_pos now email sess rest hx]
      congr 1
      · exact filter_erase_memb st.sessions email (expiredEmails now rest)
      · exact filter_erase_memb st.connections email (expiredEmails now rest)
    · rw [if_neg hx, ih, expiredEmails_cons_neg now email sess rest hx]

/-- A concrete store whose single session expires exactly at time 100. -/
def cStore : Store :=
  { domain := "example.com"
    sessions := [("a@example.com", { createdAt := 0, expiresAt := 100 })]
    connections := [("a@example.com", { id := 1, readyState := 1, sendOk := true })]
    totalEmailsCreated := 1
    totalMessagesReceived := 0 }

/-- C5 counterexample: a sweep at exactly `now = expiresAt` keeps the
session, while the claim (`expiresAt <= now` is removed) requires the
surviving sessions to be exactly those with `now < expiresAt` — which
would be none here. -/
theorem cleanup_claim_cex :
    ¬ ((cleanupOnce cStore 100).sessions =
        cStore.sessions.filter (fun p => decide (100 < p.2.expiresAt))) := by
  decide

/-- C5 (amended): one sweep removes exactly the sessions with
`expiresAt < now` (strict comparison: an entry with `expiresAt = now` is
already dead for reads but survives this sweep), removes the Registry
binding of every removed address, and leaves every other session, binding
and the remaining state untouched. -/
theorem cleanup_spec (s : Store) (now : Nat)
    (h : (s.sessions.map Prod.fst).Nodup) :
    (cleanupOnce s now).sessions =
      s.sessions.filter (fun p => decide (now ≤ p.2.expiresAt))
    ∧ (cleanupOnce s now).connections =
      s.connections.filter (fun p => !(memb p.1 (expiredEmails now s.sessions)))
    ∧ (cleanupOnce s now).domain = s.domain
    ∧ (cleanupOnce s now).totalEmailsCreated = s.totalEmailsCreated
    ∧ (cleanupOnce s now).totalMessagesReceived = s.totalMessagesReceived := by
  unfold cleanupOnce
  rw [cleanupGo_spec now s.sessions s]
  refine ⟨?_, rfl, rfl, rfl, rfl⟩
  apply List.filter_congr
  intro p hp
  by_cases hexp : p.2.expiresAt < now
  · have hmem : memb p.1 (expiredEmails now s.sessions) = true := by
      rw [memb_iff]
      exact List.mem_map_of_mem Prod.fst (List.mem_filter.mpr ⟨hp, by simp [hexp]⟩)
    simp [hmem, Nat.not_le.mpr hexp]
  · have hmem : memb p.1 (expiredEmails now s.sessions) = false := by
      cases hm : memb p.1 (expiredEmails now s.sessions)
      · rfl
      · exfalso
        rw [memb_iff] at hm
        obtain ⟨q, hq, hq1⟩ := List.mem_map.mp hm
        have hqmem : q ∈ s.sessions := List.mem_of_mem_filter hq
        have hqe : q = p := List.inj_on_of_nodup_map h hqmem hp hq1
        have := (List.mem_filter.mp hq).2
        rw [hqe] at this
        exact hexp (by simpa using this)
    simp [hmem, Nat.not_lt.mp hexp]

/-- A concrete store with one expired and one live session, each with a
bound channel. -/
def cStore2 : Store :=
  { domain := "example.com"
    sessions := [("a@example.com", { createdAt := 0, expiresAt := 50 }),
                 ("b@example.com", { createdAt := 0, expiresAt := 200 })]
    connections := [("a@example.com", { id := 1, readyState := 1, sendOk := true }),
                    ("b@example.com", { id := 2, readyState := 1, sendOk := true })]
    totalEmailsCreated := 2
    totalMessagesReceived := 0 }

/-- Witness for the amended C5 at a concrete store: the expired session's
entry and binding go, the live ones stay. -/
theorem cleanup_spec_witness :
    (cleanupOnce cStore2 100).sessions =
      cStore2.sessions.filter (fun p => decide (100 ≤ p.2.expiresAt)) ∧
    (cleanupOnce cStore2 100).connections =
      cStore2.connections.filter
        (fun p => !(memb p.1 (expiredEmails 100 cStore2.sessions))) :=
  ⟨(cleanup_spec cStore2 100 (by decide)).1,
   (cleanup_spec cStore2 100 (by decide)).2.1⟩

/-- A concrete store holding only an expired-but-unswept session. -/
def eStore : Store :=
  { domain := "example.com"
    sessions := [("x@example.com", { createdAt := 0, expiresAt := 10 })]
    connections := []
    totalEmailsCreated := 1
    totalMessagesReceived := 0 }

/-- A concrete open channel. -/
def chOpen : Channel := { id := 7, readyState := 1, sendOk := true }

/-- C6 counterexample: at time 50 the session of `x@example.com` is
expired (`hasEmail` is false), yet the connection handler accepts the
channel and creates the binding — the handler checks only
`store.sessions.has(email)`, never the expiry. -/
theorem wsConnect_claim_cex :
    ¬ (((wsConnect eStore (some "x@example.com") chOpen).2 = true) ↔
        hasEmail eStore 50 "x@example.com" = true) := by
  decide

/-- C6 (amended): the binding is established if and only if the request
carries a nonempty email parameter for which a session entry is present in
the sessions map — whether or not that session has expired; otherwise the
connection is rejected and the store is unchanged, and an accepted
connection changes the store only by installing the binding. -/
theorem wsConnect_spec (s : Store) (email : Option String) (ch : Channel) :
    ((wsConnect s email ch).2 = true ↔
      ∃ e, email = some e ∧ e.isEmpty = false ∧ mapContains s.sessions e = true)
    ∧ ((wsConnect s email ch).2 = false → (wsConnect s email ch).1 = s)
    ∧ (∀ e, email = some e → (wsConnect s email ch).2 = true →
        (wsConnect s email ch).1 =
          { s with connections := mapSet s.connections e ch }) := by
  refine ⟨?_, ?_, ?_⟩
  · cases email with
    | none => simp [wsConnect]
    | some e =>
      by_cases h1 : e.isEmpty
      · simp [wsConnect, h1]
      · by_cases h2 : mapContains s.sessions e = true
        · simp [wsConnect, h1, h2]
        · simp [wsConnect, h1, h2]
  · cases email with
    | none => intro _; rfl
    | some e =>
      by_cases h1 : e.isEmpty
      · intro _; simp [wsConnect, h1]
      · by_cases h2 : mapContains s.sessions e = true
        · simp [wsConnect, h1, h2]
        · intro _; simp [wsConnect, h1, h2]
  · intro e he
    cases he
    by_cases h1 : e.isEmpty
    · simp [wsConnect, h1]
    · by_cases h2 : mapContains s.sessions e = true
      · intro _; simp [wsConnect, h1, h2]
      · simp [wsConnect, h1, h2]

/-- Witness for the amended C6: the handler accepts the expired-session
address (code checks only presence) and installs its binding. -/
theorem wsConnect_spec_witness :
    (wsConnect eStore (some "x@example.com") chOpen).1 =
      { eStore with
        connections := mapSet eStore.connections "x@example.com" chOpen } :=
  (wsConnect_spec eStore (some "x@example.com") chOpen).2.2
    "x@example.com" rfl (by decide)

/-- C7: binding a second channel for an address already bound replaces the
first — lookup afterwards yields the new channel, never the old one; and
bindings of every other address are untouched. -/
theorem bind_replace_spec (s : Store) (e : String) (c1 c2 : Channel)
    (he : e.isEmpty = false) (hs : mapContains s.sessions e = true) :
    mapLookup ((wsConnect (wsConnect s (some e) c1).1 (some e) c2).1).connections e
      = some c2
    ∧ (c1 ≠ c2 →
        mapLookup ((wsConnect (wsConnect s (some e) c1).1 (some e) c2).1).connections e
          ≠ some c1)
    ∧ (∀ e2, e2 ≠ e →
        mapLookup ((wsConnect (wsConnect s (some e) c1).1 (some e) c2).1).connections e2
          = mapLookup s.connections e2) := by
  have hne : ¬ e.isEmpty = true := by rw [he]; exact Bool.false_ne_true
  have h1 : (wsConnect s (some e) c1).1 =
      { s with connections := mapSet s.connections e c1 } := by
    simp [wsConnect, hne, hs]
  have hs2 : mapContains ({ s with connections := mapSet s.connections e c1 } : Store).sessions e = true := hs
  have h2 : (wsConnect { s with connections := mapSet s.connections e c1 } (some e) c2).1 =
      { s with connections := mapSet (mapSet s.connections e c1) e c2 } := by
    simp [wsConnect, hne, hs2]
  rw [h1, h2]
  refine ⟨mapLookup_set_self _ e c2, ?_, ?_⟩
  · intro hcc
    rw [mapLookup_set_self _ e c2]
    intro hsome
    exact hcc (Option.some.inj hsome).symm
  · intro e2 he2
    rw [mapLookup_set_ne _ e e2 c2 he2, mapLookup_set_ne _ e e2 c1 he2]

/-- Witness for C7 at a concrete store: two successive binds for the same
live address. -/
theorem bind_replace_spec_witness :
    mapLookup ((wsConnect (wsConnect wStore (some "test1@example.com")
        { id := 1, readyState := 1, sendOk := true }).1
      (some "test1@example.com") chOpen).1).connections "test1@example.com"
      = some chOpen :=
  (bind_replace_spec wStore "test1@example.com"
    { id := 1, readyState := 1, sendOk := true } chOpen rfl (by decide)).1

/-- C8: `notify` never changes the store (nothing is queued or retried);
with no bound channel it does nothing and returns normally; and a send
failure over a bound open channel is absorbed as `sendFailed`. -/
theorem notify_spec (s : Store) (a : String) (m : Message) :
    (notify s a m).1 = s
    ∧ (mapLookup s.connections a = none →
        (notify s a m).2 = NotifyOutcome.skipped)
    ∧ (∀ ch, mapLookup s.connections a = some ch → ch.readyState = 1 →
        ch.sendOk = false → (notify s a m).2 = NotifyOutcome.sendFailed) := by
  refine ⟨notify_fst s a m, ?_, ?_⟩
  · intro h
    simp [notify, h]
  · intro ch hch h1 h2
    simp [notify, hch, h1, h2]

/-- A concrete store with a bound channel whose send fails. -/
def fStore : Store :=
  { domain := "example.com"
    sessions := [("test1@example.com", { createdAt := 0, expiresAt := 100 })]
    connections := [("test1@example.com", { id := 3, readyState := 1, sendOk := false })]
    totalEmailsCreated := 1
    totalMessagesReceived := 0 }

/-- A concrete message for the notify witness. -/
def wMessage : Message :=
  { id := "m1", fromText := "sender@other.org", subject := "hi",
    text := "hello", html := "", attachments := [], receivedAt := 42 }

/-- Witness for C8: a miss on an unbound address and an absorbed send
failure on a bound one. -/
theorem notify_spec_witness :
    (notify wStore "nobody@example.com" wMessage).2 = NotifyOutcome.skipped
    ∧ (notify fStore "test1@example.com" wMessage).2 = NotifyOutcome.sendFailed :=
  ⟨(notify_spec wStore "nobody@example.com" wMessage).2.1 (by decide),
   (notify_spec fStore "test1@example.com" wMessage).2.2
     { id := 3, readyState := 1, sendOk := false } (by decide) rfl rfl⟩

/-- C9: `createEmail` with a valid prefix `p` returns the address
`p ++ "@" ++ domain` and installs (or overwrites) a session with
`createdAt = now` and `expiresAt = now + 3600000` (the 60-minute default),
incrementing `totalEmailsCreated` by exactly 1; the installed entry is what
any later lookup of that same address string sees, whatever was there
before. -/
theorem createEmail_spec (s : Store) (now : Nat) (p rnd : String)
    (hlen : p.length ≤ 32) (hpat : validPattern p = true) :
    createEmail s now (some p) rnd =
      Except.ok (p ++ "@" ++ s.domain,
        { s with
          sessions := mapSet s.sessions (p ++ "@" ++ s.domain)
            { createdAt := now, expiresAt := now + 3600000 },
          totalEmailsCreated := s.totalEmailsCreated + 1 })
    ∧ mapLookup (mapSet s.sessions (p ++ "@" ++ s.domain)
          { createdAt := now, expiresAt := now + 3600000 }) (p ++ "@" ++ s.domain)
        = some { createdAt := now, expiresAt := now + 3600000 } := by
  have hemp : p.isEmpty = false := by
    unfold validPattern at hpat
    cases hie : p.isEmpty
    · rfl
    · rw [hie] at hpat
      simp at hpat
  have hgt : ¬ p.length > 32 := Nat.not_lt.mpr hlen
  refine ⟨?_, mapLookup_set_self _ _ _⟩
  simp only [createEmail]
  rw [if_neg hgt]
  simp [hpat, hemp]

/-- Witness for C9: re-creating the already existing address of `wStore`
resets its expiry and the overwritten entry is what lookup returns. -/
theorem createEmail_spec_witness :
    createEmail wStore 500 (some "test1") "zzz" =
      Except.ok ("test1" ++ "@" ++ wStore.domain,
        { wStore with
          sessions := mapSet wStore.sessions ("test1" ++ "@" ++ wStore.domain)
            { createdAt := 500, expiresAt := 500 + 3600000 },
          totalEmailsCreated := wStore.totalEmailsCreated + 1 })
    ∧ mapLookup (mapSet wStore.sessions ("test1" ++ "@" ++ wStore.domain)
          { createdAt := 500, expiresAt := 500 + 3600000 })
        ("test1" ++ "@" ++ wStore.domain)
        = some { createdAt := 500, expiresAt := 500 + 3600000 } :=
  createEmail_spec wStore 500 "test1" "zzz" (by decide) (by decide)

/-- C10: the close handler removes the binding keyed by the address
captured at connect time, unconditionally: after channel `c1` for address
`a` is replaced by `c2`, `c1`'s close event deletes the binding now
holding `c2`, leaving `lookup a` absent even though `c2` is still open;
bindings of other addresses fall back to their pre-bind state. -/
theorem wsClose_spec (s : Store) (a : String) (c1 c2 : Channel)
    (ha : a.isEmpty = false) (hs : mapContains s.sessions a = true)
    (_hopen : c2.readyState = 1) :
    mapLookup ((wsConnect (wsConnect s (some a) c1).1 (some a) c2).1).connections a
      = some c2
    ∧ mapLookup (wsClose ((wsConnect (wsConnect s (some a) c1).1 (some a) c2).1)
        a).connections a = none
    ∧ (∀ b, b ≠ a →
        mapLookup (wsClose ((wsConnect (wsConnect s (some a) c1).1 (some a) c2).1)
          a).connections b = mapLookup s.connections b) := by
  have hne : ¬ a.isEmpty = true := by rw [ha]; exact Bool.false_ne_true
  have h1 : (wsConnect s (some a) c1).1 =
      { s with connections := mapSet s.connections a c1 } := by
    simp [wsConnect, hne, hs]
  have hs2 : mapContains ({ s with connections := mapSet s.connections a c1 } : Store).sessions a = true := hs
  have h2 : (wsConnect { s with connections := mapSet s.connections a c1 } (some a) c2).1 =
      { s with connections := mapSet (mapSet s.connections a c1) a c2 } := by
    simp [wsConnect, hne, hs2]
  rw [h1, h2]
  refine ⟨mapLookup_set_self _ a c2, ?_, ?_⟩
  · exact mapLookup_erase_self _ a
  · intro b hb
    unfold wsClose
    show mapLookup (mapErase (mapSet (mapSet s.connections a c1) a c2) a) b = _
    rw [mapLookup_erase_ne _ a b hb, mapLookup_set_ne _ a b c2 hb,
      mapLookup_set_ne _ a b c1 hb]

/-- Witness for C10 at a concrete store: after the replacement bind, the
old channel's close wipes the live binding. -/
theorem wsClose_spec_witness :
    mapLookup (wsClose ((wsConnect (wsConnect wStore (some "test1@example.com")
        { id := 1, readyState := 1, sendOk := true }).1
      (some "test1@example.com") chOpen).1) "test1@example.com").connections
      "test1@example.com" = none :=
  (wsClose_spec wStore "test1@example.com"
    { id := 1, readyState := 1, sendOk := true } chOpen rfl (by decide) rfl).2.1

end TempMail
